/-
  Verification of the M3U8 aggregation engine (BuddyChewChew/iptv).

  Shallow embedding of the orchestration core found under `src/M3U8/`:
  the bounded resolver (`Network.safe_process`), the mirror selector
  (`Network.get_base` / `Network.check_status`), the capture bridge
  (`Network.capture_req` / `Network.process_event` and the watchfooty
  variant), the cache store TTL semantics, adapter discovery filters
  (`ppv.get_events`, `watchfooty.get_events`), the watchfooty scrape
  cache/tombstone discipline, and the top-level merge in `fetch.main`.

  Cooperative-concurrency pieces (asyncio tasks, `wait_for`, `gather`)
  are embedded as explicit state machines: a task carries the behaviour
  of the wrapped coroutine (completes / raises / never finishes) and a
  settlement state, and the combinators are total functions on those.
-/
import Mathlib

set_option maxHeartbeats 1000000

namespace IPTV

/-! ### Generic pieces: Python-style results, log severities, dict ops -/

/-- Result of running a Python coroutine to completion: a value, or a raised
exception (carried as its message). -/
inductive PyResult (α : Type) where
  | ok (a : α)
  | exc (e : String)
  deriving Repr, DecidableEq

/-- Logging severities used by the `logging` calls in the source. -/
inductive Severity where
  | debug
  | info
  | warning
  | error
  deriving Repr, DecidableEq

/-- Python dict assignment `m[k] = v` on an insertion-ordered association
list: overwrite the value at an existing key, else append at the end. -/
def dinsert {α : Type} (m : List (String × α)) (k : String) (v : α) :
    List (String × α) :=
  if m.any (fun kv => kv.1 = k) then
    m.map (fun kv => if kv.1 = k then (k, v) else kv)
  else
    m ++ [(k, v)]

/-- Python truthiness of an optional string (`None` and `""` are falsy). -/
def truthyS : Option String → Bool
  | none => false
  | some s => s ≠ ""

/-- Python truthiness of an optional integer (`None` and `0` are falsy). -/
def truthyI : Option Int → Bool
  | none => false
  | some i => i ≠ 0

/-! ### Bounded resolver: `Network.safe_process` (webwork.py 52-82)

`safe_process(fn, url_num, timeout, log)` creates an asyncio task for
`fn()` and awaits it through `asyncio.wait_for`.  The behaviour of the
wrapped coroutine relative to the deadline is abstracted into three
cases: it completes with a result before the deadline, it raises before
the deadline, or it is still running when the deadline expires. -/

/-- Behaviour of the wrapped coroutine `fn()` relative to the deadline. -/
inductive FnBehavior (T : Type) where
  | completes (r : T)
  | raises (e : String)
  | hangs
  deriving Repr, DecidableEq

/-- Settlement state of an asyncio task.  `cancelling` means cancellation
was requested (`task.cancel()`) but the task has not yet been awaited to
completion; `cancelled` means the cancellation has fully completed. -/
inductive TaskState where
  | pending
  | completed
  | failed
  | cancelling
  | cancelled
  deriving Repr, DecidableEq

/-- An asyncio task: the coroutine's behaviour plus its settlement state. -/
structure AsyncTask (T : Type) where
  behavior : FnBehavior T
  state : TaskState
  deriving Repr, DecidableEq

/-- `asyncio.create_task(fn())`: a fresh, still-pending task. -/
def create_task {T : Type} (b : FnBehavior T) : AsyncTask T :=
  { behavior := b, state := TaskState.pending }

/-- Outcome of `await asyncio.wait_for(task, timeout)`. -/
inductive WaitForResult (T : Type) where
  | ok (r : T)
  | excTimeout
  | excFn (e : String)
  deriving Repr, DecidableEq

/-- `asyncio.wait_for` on a fresh task: the task settles with its result or
its exception if it finishes before the deadline, otherwise `wait_for`
raises `TimeoutError` and the task is still pending. -/
def wait_for {T : Type} (t : AsyncTask T) : WaitForResult T × AsyncTask T :=
  match t.behavior with
  | FnBehavior.completes r => (WaitForResult.ok r, { t with state := TaskState.completed })
  | FnBehavior.raises e => (WaitForResult.excFn e, { t with state := TaskState.failed })
  | FnBehavior.hangs => (WaitForResult.excTimeout, t)

/-- `task.cancel()`: requests cancellation of a still-pending task. -/
def task_cancel {T : Type} (t : AsyncTask T) : AsyncTask T :=
  match t.state with
  | TaskState.pending => { t with state := TaskState.cancelling }
  | _ => t

/-- `await task` after a cancellation request: drives the task to its fully
cancelled settlement (the `CancelledError` is swallowed by the caller). -/
def task_await_cancelled {T : Type} (t : AsyncTask T) : AsyncTask T :=
  match t.state with
  | TaskState.cancelling => { t with state := TaskState.cancelled }
  | _ => t

/-- Result of one `safe_process` call: the returned value, the log records
it emitted (severity paired with the `url_num` tag), and the final state
of the task it created. -/
structure SafeProcessRun (T : Type) where
  result : Option T
  logs : List (Severity × Nat)
  task : AsyncTask T
  deriving Repr, DecidableEq

/-- `Network.safe_process` (webwork.py 52-82): create a task for `fn()`,
await it under `asyncio.wait_for`; on `TimeoutError` log a warning, cancel
the task and await the cancellation, returning `None`; on any other
exception log an error and return `None`. -/
def safe_process {T : Type} (b : FnBehavior T) (url_num : Nat) : SafeProcessRun T :=
  let task := create_task b
  match wait_for task with
  | (WaitForResult.ok r, t) =>
      { result := some r, logs := [], task := t }
  | (WaitForResult.excTimeout, t) =>
      { result := none
        logs := [(Severity.warning, url_num)]
        task := task_await_cancelled (task_cancel t) }
  | (WaitForResult.excFn _, t) =>
      { result := none, logs := [(Severity.error, url_num)], task := t }

/-! ### Mirror selector: `Network.check_status` / `Network.get_base`
(webwork.py 33-50)

`get_base` launches one `check_status` probe per mirror and collects them
with `asyncio.gather(..., return_exceptions=True)`.  `gather` fills the
result slot of each task positionally as the tasks complete; the order in
which probes complete is modelled as an explicit schedule (a list of task
indices) folded over the result array. -/

/-- Outcome of the HTTP GET performed by a probe: a response with some
status code, or a transport failure (connection error or timeout, i.e.
`httpx.HTTPError` / `httpx.TimeoutException`). -/
inductive ProbeOutcome where
  | response (code : Nat)
  | transportError
  deriving Repr, DecidableEq

/-- `Network.check_status` (webwork.py 33-40): `raise_for_status()` raises
for any non-2xx response and the handler returns `False`; transport errors
are caught and return `False`; otherwise the result is
`status_code == 200`. -/
def check_status : ProbeOutcome → Bool
  | ProbeOutcome.response code =>
      if 200 ≤ code ∧ code < 300 then decide (code = 200) else false
  | ProbeOutcome.transportError => false

/-- One completion step of `asyncio.gather`: when task `i` completes, its
value is written into slot `i` of the result array (positionally, not at
the next free slot). -/
def gather_step (outcomes : List Bool) (acc : List (Option Bool)) (i : Nat) :
    List (Option Bool) :=
  acc.set i (some (outcomes.getD i false))

/-- The result array of `asyncio.gather` over the probe tasks after the
tasks complete in the order given by `sched`. -/
def gather_results (outcomes : List Bool) (sched : List Nat) : List (Option Bool) :=
  sched.foldl (gather_step outcomes) (List.replicate outcomes.length none)

/-- `Network.get_base` (webwork.py 42-50), with the completion order of the
concurrent probes made explicit: zip the mirrors with the gathered probe
results, keep the ones whose probe succeeded, return the first or `None`. -/
def get_base (mirrors : List String) (probe : String → ProbeOutcome)
    (sched : List Nat) : Option String :=
  let outcomes := mirrors.map (fun m => check_status (probe m))
  let results := gather_results outcomes sched
  let working_mirrors :=
    ((mirrors.zip results).filter (fun p => p.2.getD false)).map Prod.fst
  working_mirrors.head?

/-! ### Capture bridge: `Network.capture_req` / `Network.process_event`
(webwork.py 84-164) and the watchfooty variant (watchfooty.py 77-146)

The request observer appends every URL matching the manifest regex
`^(?!.*(amazonaws|knitcdn)).*\.m3u8` (IGNORECASE) to `captured` and sets
the one-shot `got_one` flag.  With `^` anchoring the search at position 0
and `.` not crossing newlines, the regex matches exactly when the first
line of the URL contains `.m3u8` and contains neither denylisted host,
case-insensitively. -/

/-- Substring test on character lists. -/
def isSubstr (needle hay : List Char) : Bool :=
  (List.range (hay.length + 1)).any (fun i => needle.isPrefixOf (hay.drop i))

/-- Characters of a string up to the first newline (the span scanned by
`.*` in a non-MULTILINE regex anchored at position 0). -/
def first_line (cs : List Char) : List Char :=
  cs.takeWhile (fun c => c ≠ '\n')

/-- The manifest-URL pattern of `Network.capture_req` (webwork.py 91-100):
`.m3u8` present and neither `amazonaws` nor `knitcdn` present,
case-insensitively, within the first line. -/
def matches_pattern (url : String) : Bool :=
  let cs := (first_line url.toList).map Char.toLower
  isSubstr ".m3u8".toList cs &&
    !(isSubstr "amazonaws".toList cs) && !(isSubstr "knitcdn".toList cs)

/-- One invocation of the `capture_req` observer (webwork.py 84-102) on the
state `(captured, got_one)`: a matching request URL is appended and the
one-shot flag is set; anything else leaves the state unchanged. -/
def capture_req (st : List String × Bool) (url : String) : List String × Bool :=
  if matches_pattern url then (st.1 ++ [url], true) else st

/-- The observer state after the page issued the requests `reqs`, in order. -/
def run_handler (reqs : List String) : List String × Bool :=
  reqs.foldl capture_req ([], false)

/-- Rendering-session actions performed by `process_event`, recorded so the
cleanup discipline of its `finally` block can be stated. -/
inductive PageAction where
  | newPage
  | addListener
  | goto
  | removeListener
  | closePage
  deriving Repr, DecidableEq

/-- Outcome of `page.goto` and the rest of the non-wait body: either it
runs without raising, or some step raises an exception. -/
inductive NavOutcome where
  | ok
  | excp (e : String)
  deriving Repr, DecidableEq

/-- Result of one `process_event` call: the value returned to the caller,
the final `captured` list, and the session actions in order. -/
structure ProcessEventRun where
  result : Option String
  captured : List String
  actions : List PageAction
  deriving Repr, DecidableEq

/-- `Network.process_event` (webwork.py 104-164): open a page, install the
observer, navigate, wait for `got_one` under the inner timeout, and return
`captured[0]` on success, `None` on timeout or exception; the `finally`
block removes the observer and closes the page on every path. -/
def process_event (nav : NavOutcome) (reqs : List String) : ProcessEventRun :=
  let st := run_handler reqs
  { result :=
      match nav with
      | NavOutcome.excp _ => none
      | NavOutcome.ok => if st.2 then st.1.head? else none
    captured := st.1
    actions := [PageAction.newPage, PageAction.addListener, PageAction.goto,
                PageAction.removeListener, PageAction.closePage] }

/-- Outcome of the watchfooty "Stream Links" header probe
(watchfooty.py 99-114): the selector timed out, or it was found and the
`\((\d+)\)` search over its text yielded no match or the given count. -/
inductive HeaderOutcome where
  | noHeader
  | header (countMatch : Option Nat)
  deriving Repr, DecidableEq

/-- `watchfooty.process_event` (watchfooty.py 77-146): like
`Network.process_event` but it first requires the "Stream Links" header to
show a nonzero link count, and it returns `captured[-1]` (the last capture)
instead of the first. -/
def wf_process_event (nav : NavOutcome) (hdr : HeaderOutcome)
    (reqs : List String) : ProcessEventRun :=
  let st := run_handler reqs
  { result :=
      match nav, hdr with
      | NavOutcome.excp _, _ => none
      | NavOutcome.ok, HeaderOutcome.noHeader => none
      | NavOutcome.ok, HeaderOutcome.header none => none
      | NavOutcome.ok, HeaderOutcome.header (some 0) => none
      | NavOutcome.ok, HeaderOutcome.header (some (_ + 1)) =>
          if st.2 then st.1.getLast? else none
    captured := st.1
    actions := [PageAction.newPage, PageAction.addListener, PageAction.goto,
                PageAction.removeListener, PageAction.closePage] }

/-! ### Cache store (TTL semantics) -/

/-- A persisted stream entry as written by the adapters: resolved URL
(`none` or `""` marks a tombstone), logo, origin base URL, discovery
timestamp, and external id. -/
structure StreamEntry where
  url : Option String
  logo : String
  base : String
  timestamp : Int
  id : String
  deriving Repr, DecidableEq

/-- Modelled from the spec: the `Cache` class of `scrapers/utils` is not
under `src/` — only its callers (`ppv.py` 14-16, `watchfooty.py` 18-20,
`fstv.py` 21) are.  Per spec §4.1 and §3, `load()` drops (but does not
delete on disk) any entry whose age `now − timestamp` is `≥` the
configured TTL `exp`, and a missing or corrupt underlying file yields an
empty map rather than an error.  The on-disk file is modelled as
`none` (missing or corrupt) or `some` snapshot map. -/
def cache_load (file : Option (List (String × StreamEntry))) (exp now : Int) :
    List (String × StreamEntry) :=
  match file with
  | none => []
  | some m => m.filter (fun kv => now - kv.2.timestamp < exp)

/-! ### Adapter discovery: `ppv.get_events` (ppv.py 37-93) and
`watchfooty.get_events` (watchfooty.py 149-201)

Timestamps are seconds as integers; `Time` comparisons between datetimes
compare the underlying timestamps, and `now.delta(minutes=±30)` is
`now ∓/± 1800` seconds. -/

/-- One stream object of the ppv.to `api/streams` payload (fields may be
missing or falsy). -/
structure PpvStream where
  name : Option String
  starts_at : Option Int
  poster : Option String
  iframe : Option String
  deriving Repr, DecidableEq

/-- One category group of the ppv.to `api/streams` payload. -/
structure PpvGroup where
  category : String
  streams : List PpvStream
  deriving Repr, DecidableEq

/-- A discovery-time event as built by the adapters' `get_events`. -/
structure Event where
  sport : String
  event : String
  link : String
  logo : Option String
  timestamp : Int
  deriving Repr, DecidableEq

/-- The composite cache key used by ppv (ppv.py 73). -/
def ppv_key (sport name : String) : String :=
  "[" ++ sport ++ "] " ++ name ++ " (PPV)"

/-- The body of the inner loop of `ppv.get_events` (ppv.py 64-91) for one
stream object: skip events with missing/falsy fields, skip keys already
cached, skip events outside the ±30-minute window, else build the event. -/
def ppv_event_of (cached_keys : List String) (now : Int) (sport : String)
    (ev : PpvStream) : Option Event :=
  if truthyS ev.name && truthyI ev.starts_at && truthyS ev.iframe then
    let name := ev.name.getD ""
    let key := ppv_key sport name
    if cached_keys.contains key then none
    else
      let ts := ev.starts_at.getD 0
      if now - 1800 ≤ ts ∧ ts ≤ now + 1800 then
        some { sport := sport, event := name, link := ev.iframe.getD ""
               logo := ev.poster, timestamp := ts }
      else none
  else none

/-- One category group of `ppv.get_events` (ppv.py 58-91): the
`24/7 Streams` category is skipped wholesale. -/
def ppv_group_events (cached_keys : List String) (now : Int) (g : PpvGroup) :
    List Event :=
  if g.category = "24/7 Streams" then []
  else g.streams.filterMap (ppv_event_of cached_keys now g.category)

/-- `ppv.get_events` (ppv.py 37-93) over an already-loaded API payload. -/
def ppv_get_events (api_streams : List PpvGroup) (cached_keys : List String)
    (now : Int) : List Event :=
  (api_streams.map (ppv_group_events cached_keys now)).flatten

/-- One match object of the watchfooty API payload. -/
structure WfApiEvent where
  matchId : String
  title : String
  league : String
  ts : Option Int
  poster : Option String
  deriving Repr, DecidableEq

/-- The composite cache key used by watchfooty (watchfooty.py 186, 252). -/
def wf_key (sport name : String) : String :=
  "[" ++ sport ++ "] " ++ name ++ " (WFTY)"

/-- The sport label of `watchfooty.get_events` (watchfooty.py 165, 182):
the part of the league string before the first `-` or `(`, stripped. -/
def wf_sport_of (league : String) : String :=
  (String.mk (league.toList.takeWhile (fun c => c ≠ '-' && c ≠ '('))).trim

/-- The body of the loop of `watchfooty.get_events` (watchfooty.py 167-199)
for one API match: skip events without a `ts` field, skip events outside
the ±30-minute window, skip keys already cached, else build the event.
The millisecond timestamp is truncated to seconds
(`int(str(ts)[:-3])`). -/
def wf_event_of (cached_keys : List String) (base_url : String) (now : Int)
    (ev : WfApiEvent) : Option Event :=
  match ev.ts with
  | none => none
  | some ts =>
      let start_ts := ts / 1000
      if now - 1800 ≤ start_ts ∧ start_ts ≤ now + 1800 then
        let sport := wf_sport_of ev.league
        let key := wf_key sport ev.title
        if cached_keys.contains key then none
        else
          some { sport := sport, event := ev.title
                 link := base_url ++ "stream/" ++ ev.matchId
                 logo := ev.poster, timestamp := start_ts }
      else none

/-- `watchfooty.get_events` (watchfooty.py 149-201) over an already-loaded
API payload. -/
def wf_get_events (api_data : List WfApiEvent) (base_url : String)
    (cached_keys : List String) (now : Int) : List Event :=
  api_data.filterMap (wf_event_of cached_keys base_url now)

/-! ### watchfooty scrape: cache writes and live output
(watchfooty.py 204-277) -/

/-- The per-event tail of the `watchfooty.scrape` loop (watchfooty.py
245-268): the entry — with whatever `safe_process` returned as its URL,
possibly `None` — is always written to the cache map under the event's
key, and additionally placed in the live output map `urls` only when the
URL is truthy. -/
def wf_resolution_step (cached_urls urls : List (String × StreamEntry))
    (key : String) (entry : StreamEntry) :
    List (String × StreamEntry) × List (String × StreamEntry) :=
  let cached' := dinsert cached_urls key entry
  let urls' := if truthyS entry.url then dinsert urls key entry else urls
  (cached', urls')

/-- The load-time filter of `watchfooty.scrape` (watchfooty.py 205-206):
only cached entries with a truthy URL enter the live output. -/
def wf_valid (cached_urls : List (String × StreamEntry)) :
    List (String × StreamEntry) :=
  cached_urls.filter (fun kv => truthyS kv.2.url)

/-! ### Top level: `fetch.load_base` and the merge in `fetch.main`
(fetch.py 30-117) -/

/-- The literal scanned for by the `tvg-chno="(\d+)"` regex. -/
def chno_lit : List Char := "tvg-chno=\"".toList

/-- Leading decimal digits of a character list, and the rest. -/
def takeDigits : List Char → List Char × List Char
  | [] => ([], [])
  | c :: cs =>
      if c.isDigit then
        let (ds, r) := takeDigits cs
        (c :: ds, r)
      else ([], c :: cs)

/-- Numeric value of a list of decimal digits. -/
def digitsToNat (ds : List Char) : Nat :=
  ds.foldl (fun n c => n * 10 + (c.toNat - 48)) 0

/-- Non-overlapping scan of `re.findall(r'tvg-chno="(\d+)"', data)`: at
each position, match the literal, then one or more digits, then the
closing quote; on success emit the number and continue after the match,
else advance one character.  `fuel` bounds the recursion by the input
length. -/
def findChnos : Nat → List Char → List Nat
  | 0, _ => []
  | _, [] => []
  | fuel + 1, c :: cs =>
      let s := c :: cs
      if chno_lit.isPrefixOf s then
        let rest := s.drop chno_lit.length
        match takeDigits rest with
        | ([], _) => findChnos fuel cs
        | (d :: ds, rest') =>
            match rest' with
            | '"' :: rest'' => digitsToNat (d :: ds) :: findChnos fuel rest''
            | _ => findChnos fuel cs
      else findChnos fuel cs

/-- `fetch.load_base` (fetch.py 30-39), numeric part:
`max(map(int, pattern.findall(data)), default=0)`. -/
def last_chnl_num (data : String) : Nat :=
  (findChnos data.length data.toList).foldl max 0

/-- The per-event payload carried by each adapter's `urls` map, as consumed
by the merge loop of `fetch.main` (fetch.py 79-102). -/
structure Info where
  url : String
  logo : String
  base : String
  id : String
  deriving Repr, DecidableEq

/-- The user agent string of `Network.UA` (webwork.py 17-21). -/
def UA : String :=
  "Mozilla/5.0 (Windows NT 10.0; Win64; x64) " ++
    "AppleWebKit/537.36 (KHTML, like Gecko) " ++
    "Chrome/134.0.0.0 Safari/537.36 Edg/134.0.0.0"

/-- The `#EXTINF` metadata line built by `fetch.main` (fetch.py 83-91). -/
def extinf (chno : Nat) (id event logo : String) : String :=
  "#EXTINF:-1 tvg-chno=\"" ++ toString chno ++ "\" tvg-id=\"" ++ id ++
    "\" tvg-name=\"" ++ event ++ "\" tvg-logo=\"" ++ logo ++
    "\" group-title=\"Live Events\"," ++ event

/-- The `#EXTVLCOPT` header-spoofing block plus media URL (fetch.py
93-98). -/
def vlc_block (info : Info) : List String :=
  ["#EXTVLCOPT:http-referrer=" ++ info.base,
   "#EXTVLCOPT:http-origin=" ++ info.base,
   "#EXTVLCOPT:http-user-agent=" ++ UA,
   info.url]

/-- One emitted channel of the merge loop: its combined and live-only
channel numbers, the sort key and payload they came from, and the emitted
text lines. -/
structure Channel where
  chnoAll : Nat
  chnoLive : Nat
  event : String
  info : Info
  extinfAll : String
  extinfLive : String
  vlc : List String
  deriving Repr, DecidableEq

/-- Python's `enumerate(xs, start=i)`. -/
def numberFrom {α : Type} : Nat → List α → List (Nat × α)
  | _, [] => []
  | i, a :: as => (i, a) :: numberFrom (i + 1) as

/-- `sorted(additions.items())`: the additions map sorted by key (keys are
unique in a dict, so the tuple comparison never reaches the values). -/
def sorted_additions (additions : List (String × Info)) : List (String × Info) :=
  additions.insertionSort (fun a b => a.1 ≤ b.1)

/-- The merge loop of `fetch.main` (fetch.py 79-102): enumerate the sorted
additions from 1; entry `i` gets live-only channel number `i` and combined
channel number `tvg_chno + i`. -/
def merge_entry (tvg_chno : Nat) (p : Nat × (String × Info)) : Channel :=
  { chnoAll := tvg_chno + p.1
    chnoLive := p.1
    event := p.2.1
    info := p.2.2
    extinfAll := extinf (tvg_chno + p.1) p.2.2.id p.2.1 p.2.2.logo
    extinfLive := extinf p.1 p.2.2.id p.2.1 p.2.2.logo
    vlc := vlc_block p.2.2 }

/-- The merge loop of `fetch.main` (fetch.py 79-102), as the map of
`merge_entry` over the enumerated sorted additions. -/
def merge_channels (tvg_chno : Nat) (additions : List (String × Info)) :
    List Channel :=
  (numberFrom 1 (sorted_additions additions)).map (merge_entry tvg_chno)

/-- `asyncio.gather(*tasks)` with the default `return_exceptions=False`:
the first raised exception propagates to the awaiter; only if every task
returns normally does `gather` return the list of results. -/
def gather {α : Type} : List (PyResult α) → PyResult (List α)
  | [] => PyResult.ok []
  | PyResult.exc e :: _ => PyResult.exc e
  | PyResult.ok a :: rest =>
      match gather rest with
      | PyResult.ok as => PyResult.ok (a :: as)
      | PyResult.exc e => PyResult.exc e

/-- The dict-union chain `fstv.urls | lotus.urls | ... | watchfooty.urls`
(fetch.py 61-73): later maps overwrite earlier keys. -/
def urls_union (maps : List (List (String × Info))) : List (String × Info) :=
  maps.foldl (fun acc m => m.foldl (fun a kv => dinsert a kv.1 kv.2) acc) []

/-- The tuple unpacking `match_name, url = await network.safe_process(...)`
of `fstv.scrape` (fstv.py 148-152): `safe_process` returns `None` on
timeout or error, and unpacking `None` raises `TypeError`. -/
def fstv_unpack (r : Option (String × String)) : PyResult (String × String) :=
  match r with
  | some p => PyResult.ok p
  | none => PyResult.exc "TypeError: cannot unpack non-iterable NoneType object"

/-- `fetch.main` (fetch.py 42-117) after `load_base`: await the join over
all adapter scrape tasks, then merge their `urls` maps and write both
playlists.  The adapter tasks are abstracted by the results of their
coroutines; `none` means `main` raised before reaching the write calls, so
no playlist file was written. -/
def main_run (base_data : String)
    (adapters : List (PyResult (List (String × Info)))) :
    Option (List Channel) :=
  match gather adapters with
  | PyResult.exc _ => none
  | PyResult.ok maps =>
      some (merge_channels (last_chnl_num base_data) (urls_union maps))

/-! ## Claim theorems -/

/-- C2: `Network.safe_process(fn, url_num, t)` returns `fn`'s result when
`fn` completes before the deadline, and returns `None` — never propagating
an exception to the caller — both when the deadline expires and when `fn`
raises an unexpected exception; the timeout is logged at warning severity
and the unexpected failure at error severity. -/
theorem safe_process_contract {T : Type} (b : FnBehavior T) (n : Nat) :
    (∀ r, b = FnBehavior.completes r →
      (safe_process b n).result = some r ∧ (safe_process b n).logs = []) ∧
    (b = FnBehavior.hangs →
      (safe_process b n).result = none ∧
      (safe_process b n).logs = [(Severity.warning, n)]) ∧
    (∀ e, b = FnBehavior.raises e →
      (safe_process b n).result = none ∧
      (safe_process b n).logs = [(Severity.error, n)]) := by
  refine ⟨?_, ?_, ?_⟩ <;> intros <;> subst_vars <;>
    simp [safe_process, create_task, wait_for]

/-- Witness for `safe_process_contract` at a hanging operation. -/
theorem safe_process_contract_witness :
    (safe_process (FnBehavior.hangs : FnBehavior Nat) 3).result = none ∧
    (safe_process (FnBehavior.hangs : FnBehavior Nat) 3).logs =
      [(Severity.warning, 3)] :=
  (safe_process_contract (FnBehavior.hangs : FnBehavior Nat) 3).2.1 rfl

/-- C3: when the deadline expires, `safe_process` cancels the task it
created and awaits the cancellation to completion before returning (the
task ends fully `cancelled`, not merely cancellation-requested), and on
every return path the task it created is settled — never left pending or
still cancelling. -/
theorem safe_process_no_dangling_task {T : Type} (b : FnBehavior T) (n : Nat) :
    (safe_process b n).task.state ≠ TaskState.pending ∧
    (safe_process b n).task.state ≠ TaskState.cancelling ∧
    (b = FnBehavior.hangs →
      (safe_process b n).task.state = TaskState.cancelled) := by
  cases b <;>
    simp [safe_process, create_task, wait_for, task_cancel, task_await_cancelled]

/-- Witness for `safe_process_no_dangling_task` at a hanging operation. -/
theorem safe_process_no_dangling_task_witness :
    (safe_process (FnBehavior.hangs : FnBehavior Nat) 1).task.state ≠
      TaskState.pending ∧
    (safe_process (FnBehavior.hangs : FnBehavior Nat) 1).task.state =
      TaskState.cancelled :=
  ⟨(safe_process_no_dangling_task (FnBehavior.hangs : FnBehavior Nat) 1).1,
   (safe_process_no_dangling_task (FnBehavior.hangs : FnBehavior Nat) 1).2.2 rfl⟩

/-- A cache entry discovered at `T = 0`, for the TTL boundary example. -/
def demo_entry : StreamEntry :=
  { url := some "https://cdn.example/a.m3u8", logo := "l", base := "b"
    timestamp := 0, id := "Live.Event.us" }

/-- C4: `Cache.load()` returns a stored entry exactly when its age
`now − timestamp` is strictly less than the TTL `exp` and excludes any
entry with age `≥ exp`; for TTL 3600 an entry stored at `T = 0` is
returned at `T = 3599` and the map is empty at `T = 3601`; a missing or
corrupt underlying file yields an empty map rather than an error. -/
theorem cache_load_ttl (m : List (String × StreamEntry)) (exp now : Int)
    (k : String) (e : StreamEntry) :
    ((k, e) ∈ cache_load (some m) exp now ↔
      (k, e) ∈ m ∧ now - e.timestamp < exp) ∧
    cache_load none exp now = [] ∧
    (("k", demo_entry) ∈ cache_load (some [("k", demo_entry)]) 3600 3599) ∧
    cache_load (some [("k", demo_entry)]) 3600 3601 = [] := by
  refine ⟨?_, rfl, ?_, ?_⟩
  · simp [cache_load, List.mem_filter]
  · simp [cache_load, demo_entry]
  · simp [cache_load, demo_entry]

/-- Folding the observer over a request stream appends exactly the
matching URLs, and the one-shot flag ends set exactly when some request
matched. -/
theorem capture_fold (reqs : List String) (acc : List String) (g : Bool) :
    reqs.foldl capture_req (acc, g) =
      (acc ++ reqs.filter matches_pattern, g || reqs.any matches_pattern) := by
  induction reqs generalizing acc g with
  | nil => simp
  | cons r rs ih =>
      by_cases h : matches_pattern r <;>
        simp [capture_req, h, ih, List.filter_cons]

/-- The observer state after a request stream: the matching URLs in
arrival order, and whether any matched. -/
theorem run_handler_eq (reqs : List String) :
    run_handler reqs =
      (reqs.filter matches_pattern, reqs.any matches_pattern) := by
  simpa [run_handler] using capture_fold reqs [] false

/-- When no request matched, the one-shot flag is unset. -/
theorem any_false_of_filter_nil (reqs : List String)
    (h : reqs.filter matches_pattern = []) :
    reqs.any matches_pattern = false := by
  rw [List.any_eq_false]
  intro a ha
  have := List.filter_eq_nil_iff.mp h a ha
  simpa using this

/-- The one-shot flag is set and the first capture exists whenever some
request matched. -/
theorem filter_nil_of_any_false (reqs : List String)
    (h : reqs.any matches_pattern = false) :
    reqs.filter matches_pattern = [] := by
  rw [List.filter_eq_nil_iff]
  intro a ha
  have := List.any_eq_false.mp h a ha
  simpa using this

/-- The value `Network.process_event` returns on the non-exception path is
the first matching capture (`None` when nothing matched in time). -/
theorem process_event_result_ok (reqs : List String) :
    (process_event NavOutcome.ok reqs).result =
      (reqs.filter matches_pattern).head? := by
  show (if (run_handler reqs).2 then (run_handler reqs).1.head? else none) = _
  rw [run_handler_eq]
  by_cases h : reqs.any matches_pattern = true
  · simp [h]
  · simp only [Bool.not_eq_true] at h
    simp [h, filter_nil_of_any_false reqs h]

/-- The value `Network.process_event` returns on the exception path. -/
theorem process_event_result_excp (e : String) (reqs : List String) :
    (process_event (NavOutcome.excp e) reqs).result = none := rfl

/-- The value `watchfooty.process_event` returns when navigation succeeded
and the header advertised a nonzero link count: the last matching
capture. -/
theorem wf_process_event_result_ok (k : Nat) (reqs : List String) :
    (wf_process_event NavOutcome.ok (HeaderOutcome.header (some (k + 1)))
        reqs).result =
      (reqs.filter matches_pattern).getLast? := by
  show (if (run_handler reqs).2 then (run_handler reqs).1.getLast? else none) = _
  rw [run_handler_eq]
  by_cases h : reqs.any matches_pattern = true
  · simp [h]
  · simp only [Bool.not_eq_true] at h
    simp [h, filter_nil_of_any_false reqs h]

/-- The value `watchfooty.process_event` returns on every other path is
`None`. -/
theorem wf_process_event_result_none (nav : NavOutcome) (hdr : HeaderOutcome)
    (reqs : List String)
    (h : ∀ k, ¬(nav = NavOutcome.ok ∧ hdr = HeaderOutcome.header (some (k + 1)))) :
    (wf_process_event nav hdr reqs).result = none := by
  cases nav with
  | excp e => rfl
  | ok =>
      match hdr with
      | HeaderOutcome.noHeader => rfl
      | HeaderOutcome.header none => rfl
      | HeaderOutcome.header (some 0) => rfl
      | HeaderOutcome.header (some (k + 1)) => exact absurd ⟨rfl, rfl⟩ (h k)

/-- Unfolding of the manifest pattern: a match means the (first line of
the) URL contains `.m3u8` and neither denylisted host,
case-insensitively. -/
theorem matches_pattern_spec (u : String) (h : matches_pattern u = true) :
    isSubstr ".m3u8".toList ((first_line u.toList).map Char.toLower) = true ∧
    isSubstr "amazonaws".toList ((first_line u.toList).map Char.toLower) = false ∧
    isSubstr "knitcdn".toList ((first_line u.toList).map Char.toLower) = false := by
  simp only [matches_pattern, Bool.and_eq_true, Bool.not_eq_true'] at h
  exact ⟨h.1.1, h.1.2, h.2⟩

/-- C7: `Network.process_event` returns either `None` or a URL taken from
the page's captured outgoing requests that matches the manifest pattern —
it contains `.m3u8` and neither denylisted host `amazonaws` nor `knitcdn`
— and among matching captures it returns the first one, while the
watchfooty variant returns the last; when no request matches before the
inner timeout the result is `None`. -/
theorem process_event_returns_matching_capture (nav : NavOutcome)
    (hdr : HeaderOutcome) (reqs : List String) :
    ((process_event nav reqs).result = none ∨
      ∃ u, (process_event nav reqs).result = some u ∧ u ∈ reqs ∧
        matches_pattern u = true ∧
        isSubstr ".m3u8".toList ((first_line u.toList).map Char.toLower) = true ∧
        isSubstr "amazonaws".toList ((first_line u.toList).map Char.toLower) = false ∧
        isSubstr "knitcdn".toList ((first_line u.toList).map Char.toLower) = false ∧
        (process_event nav reqs).result =
          (reqs.filter matches_pattern).head?) ∧
    (reqs.filter matches_pattern = [] →
      (process_event nav reqs).result = none) ∧
    ((wf_process_event nav hdr reqs).result = none ∨
      ∃ u, (wf_process_event nav hdr reqs).result = some u ∧ u ∈ reqs ∧
        matches_pattern u = true ∧
        (wf_process_event nav hdr reqs).result =
          (reqs.filter matches_pattern).getLast?) ∧
    (reqs.filter matches_pattern = [] →
      (wf_process_event nav hdr reqs).result = none) := by
  refine ⟨?_, ?_, ?_, ?_⟩
  · cases nav with
    | excp e => exact Or.inl (process_event_result_excp e reqs)
    | ok =>
        have hpe := process_event_result_ok reqs
        cases hf : reqs.filter matches_pattern with
        | nil => exact Or.inl (by rw [hpe, hf]; rfl)
        | cons u us =>
            right
            have hu : u ∈ reqs.filter matches_pattern := by
              rw [hf]; exact List.mem_cons_self u us
            have hmem := List.mem_filter.mp hu
            have hspec := matches_pattern_spec u hmem.2
            exact ⟨u, by rw [hpe, hf]; rfl, hmem.1, hmem.2, hspec.1,
              hspec.2.1, hspec.2.2, by rw [hpe, hf]⟩
  · intro hf
    cases nav with
    | excp e => exact process_event_result_excp e reqs
    | ok => rw [process_event_result_ok reqs, hf]; rfl
  · cases nav with
    | excp e =>
        exact Or.inl (wf_process_event_result_none _ _ reqs
          (fun k h => by cases h.1))
    | ok =>
        match hdr with
        | HeaderOutcome.noHeader =>
            exact Or.inl (wf_process_event_result_none _ _ reqs
              (fun k h => by cases h.2))
        | HeaderOutcome.header none =>
            exact Or.inl (wf_process_event_result_none _ _ reqs
              (fun k h => by cases h.2))
        | HeaderOutcome.header (some 0) =>
            exact Or.inl (wf_process_event_result_none _ _ reqs
              (fun k h => by cases h.2))
        | HeaderOutcome.header (some (k + 1)) =>
            have hwf := wf_process_event_result_ok k reqs
            cases hl : (reqs.filter matches_pattern).getLast? with
            | none => exact Or.inl (by rw [hwf, hl])
            | some u =>
                right
                have hu : u ∈ reqs.filter matches_pattern :=
                  List.mem_of_getLast?_eq_some hl
                have hmem := List.mem_filter.mp hu
                exact ⟨u, by rw [hwf, hl], hmem.1, hmem.2, by rw [hwf, hl]⟩
  · intro hf
    cases nav with
    | excp e =>
        exact wf_process_event_result_none _ _ reqs (fun k h => by cases h.1)
    | ok =>
        match hdr with
        | HeaderOutcome.noHeader =>
            exact wf_process_event_result_none _ _ reqs
              (fun k h => by cases h.2)
        | HeaderOutcome.header none =>
            exact wf_process_event_result_none _ _ reqs
              (fun k h => by cases h.2)
        | HeaderOutcome.header (some 0) =>
            exact wf_process_event_result_none _ _ reqs
              (fun k h => by cases h.2)
        | HeaderOutcome.header (some (k + 1)) =>
            rw [wf_process_event_result_ok k reqs, hf]; rfl

/-- Witness for `process_event_returns_matching_capture`: a request stream
with no matching request yields `None` on both variants. -/
theorem process_event_returns_matching_capture_witness :
    (process_event NavOutcome.ok ["https://cdn.example/seg1.ts"]).result =
        none ∧
    (wf_process_event NavOutcome.ok (HeaderOutcome.header (some 2))
        ["https://cdn.example/seg1.ts"]).result = none := by
  have h := process_event_returns_matching_capture NavOutcome.ok
    (HeaderOutcome.header (some 2)) ["https://cdn.example/seg1.ts"]
  exact ⟨h.2.1 (by decide), h.2.2.2 (by decide)⟩

/-- C8: on every exit path of the capture-bridge resolution — successful
capture, inner timeout, or an exception during navigation or waiting — the
request observer installed by `process_event` is removed and the page it
opened is closed exactly once before the call returns, in both the
`Network` and the watchfooty variant. -/
theorem process_event_cleanup_exactly_once (nav : NavOutcome)
    (hdr : HeaderOutcome) (reqs : List String) :
    (process_event nav reqs).actions.count PageAction.closePage = 1 ∧
    (process_event nav reqs).actions.count PageAction.removeListener = 1 ∧
    (wf_process_event nav hdr reqs).actions.count PageAction.closePage = 1 ∧
    (wf_process_event nav hdr reqs).actions.count PageAction.removeListener
      = 1 := by
  refine ⟨?_, ?_, ?_, ?_⟩ <;> rfl

/-- C9: adapter discovery returns only events whose composite key is not
already cached: every event in the list `ppv.get_events` builds has a
composite key absent from `cached_keys`. -/
theorem ppv_get_events_excludes_cached (streams : List PpvGroup)
    (keys : List String) (now : Int) (e : Event)
    (he : e ∈ ppv_get_events streams keys now) :
    keys.contains (ppv_key e.sport e.event) = false := by
  simp only [ppv_get_events, List.mem_flatten, List.mem_map] at he
  obtain ⟨l, ⟨g, hg, rfl⟩, hmem⟩ := he
  unfold ppv_group_events at hmem
  split at hmem
  · cases hmem
  · simp only [List.mem_filterMap] at hmem
    obtain ⟨ev, _, hsome⟩ := hmem
    unfold ppv_event_of at hsome
    split at hsome
    · dsimp only at hsome
      split at hsome
      · cases hsome
      · split at hsome
        · cases hsome
          next hkeys _ =>
            simpa using hkeys
        · cases hsome
    · cases hsome

/-- Concrete discovery input: three qualifying events `A`, `B`, `C`. -/
def ppv_demo_streams : List PpvGroup :=
  [{ category := "Basketball"
     streams :=
       [{ name := some "A", starts_at := some 1000, poster := none
          iframe := some "https://e.example/a" },
        { name := some "B", starts_at := some 1000, poster := none
          iframe := some "https://e.example/b" },
        { name := some "C", starts_at := some 1000, poster := none
          iframe := some "https://e.example/c" }] }]

/-- Concrete cache: the keys of `A` and `B` are already present. -/
def ppv_demo_keys : List String :=
  ["[Basketball] A (PPV)", "[Basketball] B (PPV)"]

/-- The one event `ppv.get_events` returns on the demo input. -/
def ppv_demo_event : Event :=
  { sport := "Basketball", event := "C", link := "https://e.example/c"
    logo := none, timestamp := 1000 }

/-- Witness for `ppv_get_events_excludes_cached`: of 3 discovered events
with 2 keys already cached, exactly 1 new event is returned, and its key
is not among the cached keys. -/
theorem ppv_get_events_excludes_cached_witness :
    (ppv_get_events ppv_demo_streams ppv_demo_keys 1000).length = 1 ∧
    ppv_demo_keys.contains
      (ppv_key ppv_demo_event.sport ppv_demo_event.event) = false :=
  ⟨by decide,
   ppv_get_events_excludes_cached ppv_demo_streams ppv_demo_keys 1000
     ppv_demo_event (by decide)⟩

/-- Dict assignment places the pair at its key. -/
theorem dinsert_self_mem {α : Type} (m : List (String × α)) (k : String)
    (v : α) : (k, v) ∈ dinsert m k v := by
  unfold dinsert
  split
  next h =>
    simp only [List.any_eq_true, decide_eq_true_eq] at h
    obtain ⟨kv, hkv, hk⟩ := h
    exact List.mem_map.mpr ⟨kv, hkv, by simp [hk]⟩
  next h => simp

/-- Dict assignment makes the key present. -/
theorem dinsert_key_mem_keys {α : Type} (m : List (String × α)) (k : String)
    (v : α) : k ∈ (dinsert m k v).map Prod.fst :=
  List.mem_map.mpr ⟨(k, v), dinsert_self_mem m k v, rfl⟩

/-- After dict assignment, any pair at the assigned key carries the
assigned value. -/
theorem dinsert_eq_of_key {α : Type} (m : List (String × α)) (k : String)
    (v : α) : ∀ kv ∈ dinsert m k v, kv.1 = k → kv = (k, v) := by
  intro kv hkv hk
  unfold dinsert at hkv
  split at hkv
  · obtain ⟨kv0, hkv0, heq⟩ := List.mem_map.mp hkv
    by_cases h : kv0.1 = k
    · rw [if_pos h] at heq
      exact heq.symm
    · rw [if_neg h] at heq
      rw [heq] at h
      exact absurd hk h
  next h =>
    rcases List.mem_append.mp hkv with hm | hs
    · exfalso
      apply h
      simp only [List.any_eq_true, decide_eq_true_eq]
      exact ⟨kv, hm, hk⟩
    · simpa using hs

/-- `watchfooty.get_events` never returns an event whose composite key is
already cached. -/
theorem wf_get_events_excludes (api : List WfApiEvent) (b : String)
    (keys : List String) (now : Int) (ev : Event)
    (h : ev ∈ wf_get_events api b keys now) :
    keys.contains (wf_key ev.sport ev.event) = false := by
  simp only [wf_get_events, List.mem_filterMap] at h
  obtain ⟨a, _, hsome⟩ := h
  unfold wf_event_of at hsome
  match hts : a.ts with
  | none => rw [hts] at hsome; cases hsome
  | some ts =>
      rw [hts] at hsome
      dsimp only at hsome
      split at hsome
      · split at hsome
        · cases hsome
        · next hkeys =>
            cases hsome
            simpa using hkeys
      · cases hsome

/-- C10: in `watchfooty.scrape`, every resolution attempt writes a cache
entry under the event's key even when resolution produced no URL (a
tombstone), and only entries with a truthy URL are placed in the live
output map `urls`; a tombstoned key is part of the keys handed to
`get_events` — suppressing re-resolution of that event — yet never
survives the live-output filter. -/
theorem wf_tombstone_cache_contract (cached urls : List (String × StreamEntry))
    (key : String) (entry : StreamEntry) :
    key ∈ ((wf_resolution_step cached urls key entry).1.map Prod.fst) ∧
    (truthyS entry.url = false →
      (wf_resolution_step cached urls key entry).2 = urls ∧
      ∀ kv ∈ wf_valid (wf_resolution_step cached urls key entry).1,
        kv.1 ≠ key) ∧
    (truthyS entry.url = true →
      (key, entry) ∈ (wf_resolution_step cached urls key entry).2) ∧
    (∀ api b2 now ev,
      ev ∈ wf_get_events api b2
        ((wf_resolution_step cached urls key entry).1.map Prod.fst) now →
      wf_key ev.sport ev.event ≠ key) := by
  refine ⟨dinsert_key_mem_keys cached key entry, ?_, ?_, ?_⟩
  · intro hfalse
    refine ⟨by simp [wf_resolution_step, hfalse], ?_⟩
    intro kv hkv hk
    have hkv' := List.mem_filter.mp hkv
    have hval := dinsert_eq_of_key cached key entry kv hkv'.1 hk
    have htruthy := hkv'.2
    rw [hval] at htruthy
    simp only [truthyS] at htruthy hfalse
    rw [hfalse] at htruthy
    cases htruthy
  · intro htrue
    show (key, entry) ∈ (if truthyS entry.url then dinsert urls key entry else urls)
    rw [htrue]
    exact dinsert_self_mem urls key entry
  · intro api b2 now ev hev heq
    have hx := wf_get_events_excludes api b2 _ now ev hev
    rw [heq] at hx
    have hmem := dinsert_key_mem_keys cached key entry
    have hc : ((wf_resolution_step cached urls key entry).1.map
        Prod.fst).contains key = true := by
      simpa using hmem
    rw [hx] at hc
    cases hc

/-- A tombstone entry (no URL) as written after a failed resolution. -/
def wf_demo_tombstone : StreamEntry :=
  { url := none, logo := "https://i.example/l.png"
    base := "https://www.watchfooty.cc", timestamp := 1000
    id := "Live.Event.us" }

/-- The composite key of the demo event. -/
def wf_demo_key : String := wf_key "Football" "A vs B"

/-- A watchfooty API match carrying the demo event. -/
def wf_demo_api : List WfApiEvent :=
  [{ matchId := "42", title := "A vs B", league := "Football"
     ts := some 1000000, poster := none }]

/-- Witness for `wf_tombstone_cache_contract`: a failed resolution writes a
tombstone that occupies the key space, is excluded from live output, and
suppresses rediscovery of the same event. -/
theorem wf_tombstone_cache_contract_witness :
    wf_demo_key ∈
      ((wf_resolution_step [] [] wf_demo_key wf_demo_tombstone).1.map
        Prod.fst) ∧
    (wf_resolution_step [] [] wf_demo_key wf_demo_tombstone).2 = [] ∧
    (∀ kv ∈ wf_valid (wf_resolution_step [] [] wf_demo_key
        wf_demo_tombstone).1, kv.1 ≠ wf_demo_key) ∧
    (∀ ev ∈ wf_get_events wf_demo_api "https://www.watchfooty.cc/"
        ((wf_resolution_step [] [] wf_demo_key wf_demo_tombstone).1.map
          Prod.fst) 1000,
      wf_key ev.sport ev.event ≠ wf_demo_key) := by
  have h := wf_tombstone_cache_contract [] [] wf_demo_key wf_demo_tombstone
  exact ⟨h.1, (h.2.1 rfl).1, (h.2.1 rfl).2,
    fun ev hev => h.2.2.2 wf_demo_api "https://www.watchfooty.cc/" 1000 ev hev⟩

/-- `enumerate(xs, start=i)` assigns the indices `i, i+1, ...`. -/
theorem numberFrom_map_fst {α : Type} (l : List α) :
    ∀ i, (numberFrom i l).map Prod.fst = List.range' i l.length := by
  induction l with
  | nil => intro i; rfl
  | cons a as ih =>
      intro i
      simp [numberFrom, List.range'_succ, ih]

/-- `enumerate` preserves the enumerated elements. -/
theorem numberFrom_map_snd {α : Type} (l : List α) :
    ∀ i, (numberFrom i l).map Prod.snd = l := by
  induction l with
  | nil => intro i; rfl
  | cons a as ih => intro i; simp [numberFrom, ih]

/-- C6: for every base playlist (whose maximum `tvg-chno` the code
extracts, defaulting to 0) and every merged additions map of N live
entries, the merge loop of `fetch.main` emits the entries in sorted-key
order, assigning live-only channel numbers exactly `1..N` — no gaps, no
duplicates — and combined channel numbers exactly
`base_max+1..base_max+N`, over exactly the given entries. -/
theorem merge_channel_numbering (data : String) (adds : List (String × Info)) :
    (merge_channels (last_chnl_num data) adds).map (fun c => c.chnoLive) =
      List.range' 1 adds.length ∧
    (merge_channels (last_chnl_num data) adds).map (fun c => c.chnoAll) =
      List.range' (last_chnl_num data + 1) adds.length ∧
    List.Sorted (· ≤ ·)
      ((merge_channels (last_chnl_num data) adds).map (fun c => c.event)) ∧
    ((merge_channels (last_chnl_num data) adds).map
      (fun c => (c.event, c.info))).Perm adds := by
  have hlen : (sorted_additions adds).length = adds.length :=
    List.length_insertionSort _ adds
  refine ⟨?_, ?_, ?_, ?_⟩
  · show ((numberFrom 1 (sorted_additions adds)).map
        (merge_entry (last_chnl_num data))).map _ = _
    rw [List.map_map]
    have h : ((fun c : Channel => c.chnoLive) ∘
        merge_entry (last_chnl_num data)) =
        (Prod.fst : Nat × (String × Info) → Nat) := rfl
    rw [h, numberFrom_map_fst, hlen]
  · show ((numberFrom 1 (sorted_additions adds)).map
        (merge_entry (last_chnl_num data))).map _ = _
    rw [List.map_map]
    have h : ((fun c : Channel => c.chnoAll) ∘
        merge_entry (last_chnl_num data)) =
        ((last_chnl_num data + ·) ∘ (Prod.fst : Nat × (String × Info) → Nat))
      := rfl
    rw [h, ← List.map_map, numberFrom_map_fst, hlen,
      List.map_add_range']
  · show List.Sorted (· ≤ ·)
      (((numberFrom 1 (sorted_additions adds)).map
        (merge_entry (last_chnl_num data))).map _)
    rw [List.map_map]
    have h : ((fun c : Channel => c.event) ∘
        merge_entry (last_chnl_num data)) =
        ((Prod.fst : String × Info → String) ∘
          (Prod.snd : Nat × (String × Info) → String × Info)) := rfl
    rw [h, ← List.map_map, numberFrom_map_snd]
    haveI ht : IsTotal (String × Info) (fun a b => a.1 ≤ b.1) :=
      ⟨fun a b => le_total a.1 b.1⟩
    haveI htr : IsTrans (String × Info) (fun a b => a.1 ≤ b.1) :=
      ⟨fun _ _ _ hab hbc => le_trans hab hbc⟩
    have hs := List.sorted_insertionSort
      (fun a b : String × Info => a.1 ≤ b.1) adds
    exact List.pairwise_map.mpr hs
  · show (((numberFrom 1 (sorted_additions adds)).map
        (merge_entry (last_chnl_num data))).map _).Perm adds
    rw [List.map_map]
    have h : ((fun c : Channel => (c.event, c.info)) ∘
        merge_entry (last_chnl_num data)) =
        (Prod.snd : Nat × (String × Info) → String × Info) := rfl
    rw [h, numberFrom_map_snd]
    exact List.perm_insertionSort _ adds

/-- Slot `j` of the `gather` result array after any prefix of completions:
written positionally with probe `j`'s value once task `j` has completed,
untouched otherwise. -/
theorem gather_fold_getElem (outcomes : List Bool) :
    ∀ (sched : List Nat) (acc : List (Option Bool)) (j : Nat),
      (sched.foldl (gather_step outcomes) acc)[j]? =
        if j ∈ sched ∧ j < acc.length then
          some (some (outcomes.getD j false))
        else acc[j]? := by
  intro sched
  induction sched with
  | nil => intro acc j; simp
  | cons i rest ih =>
      intro acc j
      show (rest.foldl (gather_step outcomes) (gather_step outcomes acc i))[j]?
        = _
      rw [ih]
      by_cases hin : j ∈ rest
      · by_cases hlt : j < acc.length
        · simp [gather_step, hin, hlt]
        · have h1 : (acc.set i (some (outcomes.getD i false)))[j]? = none :=
            List.getElem?_eq_none (by simpa using Nat.le_of_not_lt hlt)
          have h2 : acc[j]? = none :=
            List.getElem?_eq_none (Nat.le_of_not_lt hlt)
          simp [gather_step, hin, hlt, h1, h2, Nat.le_of_not_lt hlt]
      · by_cases hij : i = j
        · subst hij
          by_cases hlt : i < acc.length
          · simp [gather_step, hin, hlt, List.getElem?_set_self hlt]
          · have h1 : (acc.set i (some (outcomes.getD i false)))[i]? = none :=
              List.getElem?_eq_none (by simpa using Nat.le_of_not_lt hlt)
            have h2 : acc[i]? = none :=
              List.getElem?_eq_none (Nat.le_of_not_lt hlt)
            simp [gather_step, hin, hlt, h1, h2, Nat.le_of_not_lt hlt]
        · have hji : ¬j = i := fun h => hij h.symm
          simp [gather_step, hin, hij, hji, List.getElem?_set_ne hij]

/-- When every probe task has completed — the completion schedule is a
permutation of the task indices — the `gather` result array holds each
probe's result at its own position, whatever the completion order was. -/
theorem gather_results_of_perm (outcomes : List Bool) (sched : List Nat)
    (hperm : sched.Perm (List.range outcomes.length)) :
    gather_results outcomes sched = outcomes.map some := by
  apply List.ext_getElem?
  intro j
  rw [gather_results, gather_fold_getElem]
  have hmem : j ∈ sched ↔ j < outcomes.length := by
    rw [hperm.mem_iff, List.mem_range]
  by_cases hj : j < outcomes.length
  · have hjs : j ∈ sched := hmem.mpr hj
    simp [hjs, hj, List.getElem?_eq_getElem hj]
  · have hjs : j ∉ sched := fun h => hj (hmem.mp h)
    have h2 : outcomes[j]? = none := List.getElem?_eq_none (Nat.le_of_not_lt hj)
    simp [hjs, hj, List.getElem?_replicate, h2]

/-- Zipping mirrors with their positional probe results and keeping the
healthy ones yields, first, the first healthy mirror by input order. -/
theorem zip_filter_head (mirrors : List String) (f : String → Bool) :
    ((((mirrors.zip ((mirrors.map f).map some)).filter
        (fun p => p.2.getD false)).map Prod.fst)).head? =
      mirrors.find? f := by
  induction mirrors with
  | nil => rfl
  | cons m ms ih =>
      by_cases h : f m
      · simp [List.filter_cons, List.find?_cons, h]
      · simpa [List.filter_cons, List.find?_cons, h] using ih

/-- C5: `Network.get_base(mirrors)` returns the first mirror in input
order whose `check_status` probe succeeded — independent of the order in
which the concurrently launched probes complete — and `None` when every
probe fails. -/
theorem get_base_first_healthy_by_input_order (mirrors : List String)
    (probe : String → ProbeOutcome) (sched : List Nat)
    (hperm : sched.Perm (List.range mirrors.length)) :
    get_base mirrors probe sched =
      mirrors.find? (fun m => check_status (probe m)) ∧
    ((∀ m ∈ mirrors, check_status (probe m) = false) →
      get_base mirrors probe sched = none) := by
  have hlen : (mirrors.map (fun m => check_status (probe m))).length =
      mirrors.length := List.length_map _ _
  have hres := gather_results_of_perm
    (mirrors.map (fun m => check_status (probe m))) sched (by rwa [hlen])
  have hmain : get_base mirrors probe sched =
      mirrors.find? (fun m => check_status (probe m)) := by
    show (((mirrors.zip (gather_results
        (mirrors.map (fun m => check_status (probe m))) sched)).filter
        (fun p => p.2.getD false)).map Prod.fst).head? = _
    rw [hres]
    exact zip_filter_head mirrors (fun m => check_status (probe m))
  refine ⟨hmain, fun hall => ?_⟩
  rw [hmain, List.find?_eq_none]
  intro m hm
  simp [hall m hm]

/-- Probe outcomes for the mirror-selector example: `A` down, `B` and `C`
up. -/
def demo_probe (m : String) : ProbeOutcome :=
  if m = "https://a.example" then ProbeOutcome.transportError
  else ProbeOutcome.response 200

/-- Witness for `get_base_first_healthy_by_input_order`: mirrors
`[A(down), B(up), C(up)]` probed out of completion order (C, then A, then
B) still select `B`. -/
theorem get_base_first_healthy_by_input_order_witness :
    get_base ["https://a.example", "https://b.example", "https://c.example"]
      demo_probe [2, 0, 1] = some "https://b.example" := by
  have h := get_base_first_healthy_by_input_order
    ["https://a.example", "https://b.example", "https://c.example"]
    demo_probe [2, 0, 1] (by decide)
  rw [h.1]
  rfl

/-- `asyncio.gather` with `return_exceptions` left at `False` propagates an
exception whenever any gathered task raised one. -/
theorem gather_exc {α : Type} (pre : List (PyResult α)) (e : String)
    (post : List (PyResult α)) :
    ∃ e', gather (pre ++ PyResult.exc e :: post) = PyResult.exc e' := by
  induction pre with
  | nil => exact ⟨e, rfl⟩
  | cons a rest ih =>
      cases a with
      | exc e0 => exact ⟨e0, rfl⟩
      | ok a =>
          obtain ⟨e', h⟩ := ih
          refine ⟨e', ?_⟩
          show (match gather (rest ++ PyResult.exc e :: post) with
            | PyResult.ok as => PyResult.ok (a :: as)
            | PyResult.exc e => PyResult.exc e) = PyResult.exc e'
          rw [h]

/-- C1 (refuted; the spec states the intent): `fetch.main` awaits
`asyncio.gather(*tasks)` with the default `return_exceptions=False`, so
the top-level join across the adapters DOES fail fast on the first
adapter exception and `main` raises before writing either playlist.  Such
an exception arises from the code itself: when an fstv event resolution
times out, `safe_process` returns `None` and the tuple unpacking at
fstv.py line 148 raises a `TypeError`, which aborts the whole run — no
output file is produced, against the claim. -/
theorem main_gather_fail_fast_aborts_output :
    (safe_process (FnBehavior.hangs : FnBehavior (String × String)) 1).result
      = none ∧
    fstv_unpack
      (safe_process (FnBehavior.hangs : FnBehavior (String × String))
        1).result =
      PyResult.exc "TypeError: cannot unpack non-iterable NoneType object" ∧
    (∀ (base_data : String)
      (pre post : List (PyResult (List (String × Info)))) (e : String),
      main_run base_data (pre ++ PyResult.exc e :: post) = none) := by
  refine ⟨rfl, rfl, ?_⟩
  intro base_data pre post e
  obtain ⟨e', h⟩ := gather_exc pre e post
  simp [main_run, h]

end IPTV
